import Mathlib

/-!
Verification of the natural-language specification of the ISM engine of
PsrSigSim (`psrsigsim/ism/ism.py`) against a shallow embedding of its code.

The Signal object, the delay-application primitive `shift_t`, the unit
utility `make_quant` and the constants module are external collaborators
(they live outside `src/`); the spec describes them only at their interface.
The embedding therefore:
  * keeps each signal's sample rows abstract (a type parameter `α`) and takes
    the delay-application primitive `shift_t` as a function parameter
    `shift : α → ℝ → ℝ → α` (row, delay in ms, sample interval in ms);
  * models float arithmetic by real numbers, and astropy unit conversion by
    the explicit factors the code's `.to(...)` calls denote (s → ms is 1000);
  * models Python attributes that may be absent (`hasattr` checks) as
    `Option` fields, and a raised Python exception as an `Option PyError`
    returned next to the signal state at the moment of the raise, since the
    object keeps every in-place mutation made before the exception.
-/

namespace PsrSigSim

/-- Python exception kinds raised (or raisable) by `psrsigsim/ism/ism.py`.
`valueError` is the `ValueError('Signal has already been dispersed!')` the
spec calls AlreadyProcessed; `notImplementedError` is the
`raise NotImplementedError()` the spec calls UnsupportedOperation. -/
inductive PyError where
  | valueError
  | typeError
  | attributeError
  | zeroDivisionError
  | indexError
  | notImplementedError
  | unboundLocalError
  deriving DecidableEq

/-- The Signal object as the ISM engine reads and writes it. `data` holds one
abstract sample row per channel; `dat_freq` the per-channel frequencies in
MHz; `samprate` the sample rate in 1/ms, so `1 / samprate` is the sample
interval in ms (the code's `(1/signal._samprate).to('ms')`). `dm`,
`dispersed` and `FDshifted` are attributes the engine itself creates, so
`none` models the attribute being absent (`hasattr` is `Option.isSome`). -/
structure Signal (α : Type) where
  sigtype : String
  dat_freq : List ℝ
  data : List α
  samprate : ℝ
  dm : Option ℝ := none
  dispersed : Option Bool := none
  FDshifted : Option Bool := none

/-- `signal.Nchan`, the channel count; the Signal class keeps it equal to the
length of its frequency array. -/
def Signal.Nchan {α : Type} (s : Signal α) : ℕ := s.dat_freq.length

/-- Modelled from the spec: the dispersion constant `DM_K` is imported from
`psrsigsim/utils/constants.py`, which is not under `src/`; the spec (§6)
requires a dispersion constant with units consistent with MHz, pc/cm³ and
ms. We use the standard value 4.148808e3 s·MHz²·cm³/pc (its exact value is
irrelevant to the claims; only its positivity is used). -/
noncomputable def DM_K : ℝ := 4148.808

/-- One per-channel dispersion delay of `_disperse_filterbank`:
`(DM_K * dm * np.power(freq, -2)).to('ms')`, i.e. the 1/f² delay in seconds
times 1000 (`np.power(freq, -2)` is the elementwise reciprocal square). -/
noncomputable def time_delay (dm f : ℝ) : ℝ := DM_K * dm * (f ^ 2)⁻¹ * 1000

/-- The shared per-channel loop of `_disperse_filterbank`, `FD_shift` and the
`convolve = False` branch of `scatter_broaden`: walk the enumerated
frequency/delay list, replace row ii by `shift_t(row, delay[ii], dt)`, then
run the progress step `(ii+1) % int(signal.Nchan//20)`, which raises
ZeroDivisionError when `Nchan // 20 == 0` — after the row was already
overwritten. Returns the rows as mutated so far plus the exception, if any;
rows beyond the enumerated delays are untouched, and a delay beyond the rows
would be an out-of-range `signal._data[ii,:]` access. -/
def shiftLoop {α : Type} (shift : α → ℝ → ℝ → α) (dt : ℝ) (nchan : ℕ) :
    List α → List ℝ → List α × Option PyError
  | rows, [] => (rows, none)
  | [], _ :: _ => ([], some PyError.indexError)
  | row :: rows, d :: ds =>
    let row' := shift row d dt
    if nchan / 20 = 0 then
      (row' :: rows, some PyError.zeroDivisionError)
    else
      let res := shiftLoop shift dt nchan rows ds
      (row' :: res.1, res.2)

/-- `ISM._disperse_filterbank`: compute the per-channel delays
`(DM_K * dm * np.power(freq_array, -2)).to('ms')` and apply each to its
channel row via `shift_t` with `dt = (1/signal._samprate).to('ms')`. -/
noncomputable def disperse_filterbank {α : Type} (shift : α → ℝ → ℝ → α)
    (s : Signal α) (dm : ℝ) : Signal α × Option PyError :=
  let delays := s.dat_freq.map (time_delay dm)
  let dt := 1 / s.samprate
  let res := shiftLoop shift dt s.Nchan s.data delays
  ({ s with data := res.1 }, res.2)

/-- `ISM._disperse_baseband`: each iteration of `for x in range(signal.Nchan)`
computes `fourier = np.fft.rfft(sig)`, the axis `f = u - signal.bw/2` on
`[-bw/2, bw/2]`, the chirp `H = exp(1j*2*pi*DM_K/((f+f0)*f0**2)*dm*f**2)` and
`Dispersed = np.fft.irfft(fourier*H)` — all without touching the signal — and
then evaluates `self.MD.mode`. `ISM.__init__` defines no attribute `MD`
(its body is `pass`), so the first iteration raises AttributeError before the
write `signal._data[x] = Dispersed` is ever reached: no row is overwritten.
With zero channels the loop body never runs and the call returns normally. -/
def disperse_baseband {α : Type} (s : Signal α) (dm : ℝ) :
    Signal α × Option PyError :=
  if s.Nchan = 0 then (s, none) else (s, some PyError.attributeError)

/-- `ISM.disperse`: sets `signal._dm = make_quant(dm, 'pc/cm^3')` first, then
raises ValueError if `hasattr(signal, '_dispersed')`, then dispatches on
`signal.sigtype`; a sigtype matching neither branch falls through, and
`signal._dispersed = True` runs whenever no exception was raised. -/
noncomputable def disperse {α : Type} (shift : α → ℝ → ℝ → α) (s : Signal α)
    (dm : ℝ) : Signal α × Option PyError :=
  let s1 : Signal α := { s with dm := some dm }
  if s1.dispersed.isSome then (s1, some PyError.valueError)
  else if s1.sigtype = "FilterBankSignal" then
    let res := disperse_filterbank shift s1 dm
    match res.2 with
    | none => ({ res.1 with dispersed := some true }, none)
    | some e => (res.1, some e)
  else if s1.sigtype = "BasebandSignal" then
    let res := disperse_baseband s1 dm
    match res.2 with
    | none => ({ res.1 with dispersed := some true }, none)
    | some e => (res.1, some e)
  else
    ({ s1 with dispersed := some true }, none)

/-- The total FD delay of `ISM.FD_shift` at one channel frequency `f` (MHz):
starting from `time_delays = zeros('ms')`, each loop iteration adds
`-1.0 * make_quant(FD_params[ii], 's').to('ms') * log(f/1000)**(ii+1)`,
i.e. `-(1000 * FD_params[ii]) * ln(f/1000)^(ii+1)` in ms (the reference
frequency is fixed at 1000 MHz). -/
noncomputable def FD_delay (FD_params : List ℝ) (f : ℝ) : ℝ :=
  (List.range FD_params.length).foldl
    (fun acc ii => acc + -(1000 * FD_params.getD ii 0) * Real.log (f / 1000) ^ (ii + 1)) 0

/-- `ISM.FD_shift`: computes the per-channel FD delays, applies each to its
channel row via `shift_t` with `dt = (1/signal._samprate).to('ms')` (the same
loop, with the same progress step, as `_disperse_filterbank`), and finally
sets `signal._FDshifted = True`. No already-applied precondition is checked
anywhere. -/
noncomputable def FD_shift {α : Type} (shift : α → ℝ → ℝ → α) (s : Signal α)
    (FD_params : List ℝ) : Signal α × Option PyError :=
  let delays := s.dat_freq.map (FD_delay FD_params)
  let dt := 1 / s.samprate
  let res := shiftLoop shift dt s.Nchan s.data delays
  match res.2 with
  | none => ({ s with data := res.1, FDshifted := some true }, none)
  | some e => ({ s with data := res.1 }, some e)

open Classical in
/-- `ISM.scale_tau_d` (written by Michael Lam, 2017), the scattering-timescale
scaling law: `tau_d * (nu_f/nu_i)**exp` with `exp = -2.0*beta/(beta-2)` when
`beta < 4` and `exp = -8.0/(6-beta)` when `beta > 4`. The exponent
expressions are Python float divisions, so `beta == 2` raises
ZeroDivisionError (`-4.0/0.0`) in the first branch and `beta == 6` raises
ZeroDivisionError (`-8.0/0.0`) in the second; when `beta == 4` neither
branch binds `exp` and the return line raises UnboundLocalError. The power
is a real (non-integer) exponent. -/
noncomputable def scale_tau_d (tau_d nu_i nu_f beta : ℝ) : Except PyError ℝ :=
  if beta < 4 then
    if beta - 2 = 0 then Except.error PyError.zeroDivisionError
    else Except.ok (tau_d * (nu_f / nu_i) ^ (-2 * beta / (beta - 2)))
  else if 4 < beta then
    if 6 - beta = 0 then Except.error PyError.zeroDivisionError
    else Except.ok (tau_d * (nu_f / nu_i) ^ (-8 / (6 - beta)))
  else Except.error PyError.unboundLocalError

/-- `ISM.scatter_broaden`: after converting its arguments it runs
`tau_d_scaled = self.scale_tau_d(tau_d, ref_freq, freq_array, beta=beta)`.
But `scale_tau_d` is declared in the class body without a `self` parameter
(`def scale_tau_d(tau_d, nu_i, nu_f, beta=KOLMOGOROV_BETA)`), so the bound
call passes five arguments — `self` into `tau_d`, `tau_d` into `nu_i`,
`ref_freq` into `nu_f`, `freq_array` positionally into `beta`, and `beta`
again by keyword — and Python raises
`TypeError: scale_tau_d() got multiple values for argument 'beta'` at the
call, before the `if not convolve` branch is reached. Neither the per-channel
shift loop nor the `raise NotImplementedError()` of the convolve branch is
reachable, and no row of `data` is ever mutated, on either value of
`convolve`. -/
def scatter_broaden {α : Type} (s : Signal α) (tau_d ref_freq beta : ℝ)
    (convolve : Bool) : Signal α × Option PyError :=
  (s, some PyError.typeError)

/-- A concrete delay-application primitive for instantiating theorems: it
marks a row (a counter) every time it is shifted. -/
noncomputable def shiftC (r : ℕ) (d : ℝ) (dt : ℝ) : ℕ := r + 1

open Classical in
/-- A concrete delay-application primitive that is stable at delay zero, as
the spec (§6) requires of `shift_t`. -/
noncomputable def shiftW (r : ℕ) (d : ℝ) (dt : ℝ) : ℕ :=
  if d = 0 then r else r + 1

/-- A channelized signal that has already been dispersed, with
`dispersionMeasure = 1`. -/
noncomputable def SigD : Signal ℕ :=
  { sigtype := "FilterBankSignal", dat_freq := [1400], data := [5],
    samprate := 1, dm := some 1, dispersed := some true }

/-- A fresh signal whose `sigtype` matches neither dispersion branch. -/
noncomputable def SigU : Signal ℕ :=
  { sigtype := "PulseProfile", dat_freq := [1400], data := [5], samprate := 1 }

/-- A fresh baseband signal with one channel. -/
noncomputable def SigBB : Signal ℕ :=
  { sigtype := "BasebandSignal", dat_freq := [1400], data := [7], samprate := 1 }

/-- A fresh channelized signal with three channels (so `Nchan // 20 = 0`). -/
noncomputable def Sig3 : Signal ℕ :=
  { sigtype := "FilterBankSignal", dat_freq := [1200, 1300, 1400],
    data := [5, 6, 7], samprate := 1 }

/-- A fresh channelized signal with twenty channels (so `Nchan // 20 = 1`). -/
noncomputable def Sig20 : Signal ℕ :=
  { sigtype := "FilterBankSignal", dat_freq := List.replicate 20 1400,
    data := List.replicate 20 0, samprate := 1 }

/-! ## Helper lemmas about the shared per-channel loop -/

/-- With at least 20 channels the progress step never divides by zero, so the
loop shifts every row: it is the elementwise `zipWith` of the primitive over
rows and delays. -/
theorem shiftLoop_of_ge {α : Type} (shift : α → ℝ → ℝ → α) (dt : ℝ) (nchan : ℕ)
    (h : nchan / 20 ≠ 0) :
    ∀ (rows : List α) (delays : List ℝ), rows.length = delays.length →
      shiftLoop shift dt nchan rows delays =
        (List.zipWith (fun r d => shift r d dt) rows delays, none) := by
  intro rows
  induction rows with
  | nil =>
    intro delays hlen
    cases delays with
    | nil => simp [shiftLoop]
    | cons d ds => simp at hlen
  | cons r rs ih =>
    intro delays hlen
    cases delays with
    | nil => simp at hlen
    | cons d ds =>
      have hrec := ih ds (by simpa using hlen)
      simp [shiftLoop, h, hrec]

/-- With fewer than 20 channels (`nchan / 20 = 0`) the very first progress
step raises ZeroDivisionError — after channel 0's row was overwritten. -/
theorem shiftLoop_of_lt {α : Type} (shift : α → ℝ → ℝ → α) (dt : ℝ) (nchan : ℕ)
    (h : nchan / 20 = 0) (r : α) (rs : List α) (d : ℝ) (ds : List ℝ) :
    shiftLoop shift dt nchan (r :: rs) (d :: ds) =
      (shift r d dt :: rs, some PyError.zeroDivisionError) := by
  simp [shiftLoop, h]

/-- If every delay is zero and the primitive is stable at delay zero, the
loop leaves the rows unchanged — whether or not it runs to completion. -/
theorem shiftLoop_fst_of_zero {α : Type} (shift : α → ℝ → ℝ → α) (dt : ℝ)
    (nchan : ℕ) (h0 : ∀ (r : α) (t : ℝ), shift r 0 t = r) :
    ∀ (delays : List ℝ), (∀ d ∈ delays, d = 0) →
      ∀ rows : List α, (shiftLoop shift dt nchan rows delays).1 = rows := by
  intro delays
  induction delays with
  | nil =>
    intro _ rows
    cases rows <;> simp [shiftLoop]
  | cons d ds ih =>
    intro hz rows
    cases rows with
    | nil => simp [shiftLoop]
    | cons r rs =>
      have hd : d = 0 := hz d (by simp)
      have hds : ∀ x ∈ ds, x = 0 := fun x hx => hz x (by simp [hx])
      subst hd
      by_cases hn : nchan / 20 = 0
      · simp [shiftLoop, hn, h0]
      · simp [shiftLoop, hn, h0, ih hds rs]

/-- Left folds of accumulated additions over `List.range` are finite sums. -/
theorem foldl_range_add (g : ℕ → ℝ) :
    ∀ n : ℕ, (List.range n).foldl (fun acc i => acc + g i) 0 =
      ∑ i in Finset.range n, g i := by
  intro n
  induction n with
  | zero => simp
  | succ m ih =>
    rw [List.range_succ, List.foldl_append, Finset.sum_range_succ, ih]
    simp

/-- With at least 20 channels, `FD_shift` completes: every channel row is
shifted by its FD delay and the `_FDshifted` flag is set. -/
theorem FD_shift_eq {α : Type} (shift : α → ℝ → ℝ → α) (s : Signal α)
    (params : List ℝ) (hn : s.dat_freq.length / 20 ≠ 0)
    (hlen : s.data.length = s.dat_freq.length) :
    FD_shift shift s params =
      ({ s with
         data := List.zipWith (fun r d => shift r d (1 / s.samprate)) s.data
           (s.dat_freq.map (FD_delay params)),
         FDshifted := some true }, none) := by
  have hlen' : s.data.length = (s.dat_freq.map (FD_delay params)).length := by
    simpa using hlen
  have hres := shiftLoop_of_ge shift s.samprate⁻¹ s.dat_freq.length hn
    s.data (s.dat_freq.map (FD_delay params)) hlen'
  simp [FD_shift, Signal.Nchan, hres]

/-! ## Claims -/

/-- Claim C1, counterexample: calling `disperse` on an already-dispersed
signal does raise the AlreadyProcessed `ValueError`, but it is not
mutation-free — `signal._dm` is assigned before the flag check, so the
failed call overwrites `dispersionMeasure` (here from 1 to 2). -/
theorem disperse_again_changes_dm :
    (disperse shiftC SigD 2).2 = some PyError.valueError ∧
      (disperse shiftC SigD 2).1.dm ≠ SigD.dm := by
  constructor
  · simp [disperse, SigD]
  · norm_num [disperse, SigD]

/-- Claim C1, amended: on a signal whose dispersed flag is already set,
`disperse` fails with the AlreadyProcessed `ValueError` and leaves `data`
and the dispersed flag unchanged, but it has already overwritten
`dispersionMeasure` with the new `dm`, since `signal._dm` is assigned
before the flag check. -/
theorem disperse_already_dispersed_state {α : Type} (shift : α → ℝ → ℝ → α)
    (s : Signal α) (dm : ℝ) (h : s.dispersed.isSome) :
    disperse shift s dm = ({ s with dm := some dm }, some PyError.valueError) := by
  simp [disperse, h]

/-- Claim C1, witness for the amended theorem at the concrete signal `SigD`. -/
theorem disperse_already_dispersed_state_witness :
    SigD.dispersed.isSome ∧
      disperse shiftC SigD 2 =
        ({ SigD with dm := some 2 }, some PyError.valueError) :=
  ⟨rfl, disperse_already_dispersed_state shiftC SigD 2 rfl⟩

/-- Claim C3: `scatter_broaden` with `convolve = True` raises and leaves
`data` untouched — but the raised error is a `TypeError` from the broken
bound call `self.scale_tau_d(tau_d, ref_freq, freq_array, beta=beta)`
(`scale_tau_d` lacks a `self` parameter, so `beta` is passed twice), not the
intended `NotImplementedError`: the `raise NotImplementedError()` of the
convolve branch is unreachable. -/
theorem scatter_broaden_convolve_typeerror {α : Type} (s : Signal α)
    (tau_d ref_freq beta : ℝ) :
    scatter_broaden s tau_d ref_freq beta true = (s, some PyError.typeError) := rfl

/-- Claim C4: `scatter_broaden` with `convolve = False` never reaches its
per-channel shift loop: the same `TypeError` from the broken
`self.scale_tau_d` bound call is raised first, so no channel row is ever
shifted by a scaled scattering delay. -/
theorem scatter_broaden_noconvolve_typeerror {α : Type} (s : Signal α)
    (tau_d ref_freq beta : ℝ) :
    scatter_broaden s tau_d ref_freq beta false = (s, some PyError.typeError) := rfl

/-- Claim C5: on a baseband signal, `disperse` never overwrites any channel
row with the chirp-filtered inverse transform: the first loop iteration of
`_disperse_baseband` raises AttributeError at `self.MD.mode` (the `ISM`
class defines no `MD` attribute) before the write `signal._data[x] =
Dispersed`, with `signal._dm` already set and the dispersed flag never set. -/
theorem disperse_baseband_attribute_error :
    disperse shiftC SigBB 3 =
      ({ SigBB with dm := some 3 }, some PyError.attributeError) := by
  simp [disperse, disperse_baseband, SigBB, Signal.Nchan]

/-- Claim C6, counterexample: the round trip fails at `beta = 2`, which
satisfies every hypothesis of the claim (`beta ≠ 4`, `f1 = 1 ≠ 2 = f2`):
the exponent expression `-2.0*beta/(beta-2)` divides by zero, so
`scale_tau_d` raises ZeroDivisionError instead of returning, and the round
trip does not yield `x` (the same happens at `beta = 6` in the other
branch). -/
theorem scale_tau_d_beta_two_zerodiv :
    (scale_tau_d 5 1 2 2).bind (fun y => scale_tau_d y 2 1 2) =
        Except.error PyError.zeroDivisionError ∧
      (scale_tau_d 5 1 2 2).bind (fun y => scale_tau_d y 2 1 2) ≠
        Except.ok 5 := by
  have h : (scale_tau_d (5:ℝ) 1 2 2).bind (fun y => scale_tau_d y 2 1 2) =
      Except.error PyError.zeroDivisionError := by
    norm_num [scale_tau_d, Except.bind]
  exact ⟨h, by rw [h]; exact fun hcon => Except.noConfusion hcon⟩

/-- Claim C6, amended: the scattering-timescale scaling law round-trips —
scaling from frequency `f1` to `f2` and back is the identity — for positive
frequencies and every spectral index `beta` outside `{2, 4, 6}`. At
`beta = 4` the code raises UnboundLocalError, and at `beta = 2` and
`beta = 6` the exponent expressions raise ZeroDivisionError; away from
those values both calls pick the same exponent branch and the two power
factors are exact inverses. -/
theorem scale_tau_d_roundtrip (x f1 f2 beta : ℝ) (hf1 : 0 < f1) (hf2 : 0 < f2)
    (hne : f1 ≠ f2) (hb : beta ≠ 4) (hb2 : beta ≠ 2) (hb6 : beta ≠ 6) :
    (scale_tau_d x f1 f2 beta).bind (fun y => scale_tau_d y f2 f1 beta) =
      Except.ok x := by
  have hr1 : (0:ℝ) < f2 / f1 := div_pos hf2 hf1
  rcases lt_or_gt_of_ne hb with h | h
  · have hz : ¬ beta - 2 = 0 := sub_ne_zero.mpr hb2
    simp only [scale_tau_d, if_pos h, if_neg hz, Except.bind]
    rw [mul_assoc, ← inv_div f2 f1, Real.inv_rpow hr1.le,
      mul_inv_cancel₀ (Real.rpow_pos_of_pos hr1 _).ne', mul_one]
  · have h1 : ¬ beta < 4 := not_lt.mpr h.le
    have hz : ¬ (6:ℝ) - beta = 0 := sub_ne_zero.mpr (Ne.symm hb6)
    simp only [scale_tau_d, if_neg h1, if_pos h, if_neg hz, Except.bind]
    rw [mul_assoc, ← inv_div f2 f1, Real.inv_rpow hr1.le,
      mul_inv_cancel₀ (Real.rpow_pos_of_pos hr1 _).ne', mul_one]

/-- Claim C6, witness for the amended theorem: the round trip at `x = 5`,
`f1 = 1`, `f2 = 2`, `beta = 3`. -/
theorem scale_tau_d_roundtrip_witness :
    (scale_tau_d 5 1 2 3).bind (fun y => scale_tau_d y 2 1 3) = Except.ok 5 :=
  scale_tau_d_roundtrip 5 1 2 3 (by norm_num) (by norm_num) (by norm_num)
    (by norm_num) (by norm_num) (by norm_num)

/-- Claim C9, counterexample: `disperse` on a signal whose `sigtype` is
neither `FilterBankSignal` nor `BasebandSignal` raises nothing at all — the
dispatch has no else branch, so the call completes and even sets the
dispersed flag. -/
theorem disperse_unknown_sigtype_no_error :
    (disperse shiftC SigU 2).2 = none ∧
      (disperse shiftC SigU 2).1.dispersed = some true := by
  constructor <;> simp [disperse, SigU]

/-- Claim C9, amended: on a signal of unrecognized kind, `disperse` silently
completes instead of raising: it sets `dispersionMeasure` and the dispersed
flag, leaves `data` untouched, and reports no error. -/
theorem disperse_unknown_sigtype_completes {α : Type} (shift : α → ℝ → ℝ → α)
    (s : Signal α) (dm : ℝ) (hnd : s.dispersed = none)
    (h1 : s.sigtype ≠ "FilterBankSignal") (h2 : s.sigtype ≠ "BasebandSignal") :
    disperse shift s dm =
      ({ s with dm := some dm, dispersed := some true }, none) := by
  simp [disperse, hnd, h1, h2]

/-- Claim C9, witness for the amended theorem at the concrete signal `SigU`. -/
theorem disperse_unknown_sigtype_completes_witness :
    SigU.dispersed = none ∧
      disperse shiftC SigU 2 =
        ({ SigU with dm := some 2, dispersed := some true }, none) :=
  ⟨rfl, disperse_unknown_sigtype_completes shiftC SigU 2 rfl
    (by simp [SigU]) (by simp [SigU])⟩

/-- Claim C2: on a fresh channelized signal with enough channels for the
progress step (`Nchan // 20 ≥ 1`), the per-channel delay computed by
`disperse` equals `K_DM * dm / freq^2` converted to milliseconds, these
delays are strictly decreasing in frequency for `dm > 0`, and `disperse`
applies each delay to its channel row via the delay-application primitive
with the signal's sample interval. -/
theorem disperse_filterbank_delay_spec {α : Type} (shift : α → ℝ → ℝ → α)
    (s : Signal α) (dm f1 f2 : ℝ)
    (hsig : s.sigtype = "FilterBankSignal") (hnd : s.dispersed = none)
    (hn : 20 ≤ s.Nchan) (hlen : s.data.length = s.dat_freq.length)
    (hdm : 0 < dm) (hf1 : 0 < f1) (hlt : f1 < f2) :
    (∀ f : ℝ, time_delay dm f = 1000 * DM_K * dm / f ^ 2) ∧
    time_delay dm f2 < time_delay dm f1 ∧
    disperse shift s dm =
      ({ s with
         dm := some dm
         dispersed := some true
         data := List.zipWith (fun r d => shift r d (1 / s.samprate)) s.data
           (s.dat_freq.map (time_delay dm)) }, none) := by
  have hK : (0:ℝ) < DM_K := by norm_num [DM_K]
  refine ⟨?_, ?_, ?_⟩
  · intro f
    unfold time_delay
    ring
  · have hf2 : (0:ℝ) < f2 := hf1.trans hlt
    have h1 : (0:ℝ) < f1 ^ 2 := by positivity
    have h2 : (0:ℝ) < f2 ^ 2 := by positivity
    have hsq : f1 ^ 2 < f2 ^ 2 := by nlinarith
    have hinv : (f2 ^ 2)⁻¹ < (f1 ^ 2)⁻¹ := (inv_lt_inv₀ h2 h1).mpr hsq
    have hKdm : (0:ℝ) < DM_K * dm := mul_pos hK hdm
    have key : DM_K * dm * (f2 ^ 2)⁻¹ < DM_K * dm * (f1 ^ 2)⁻¹ :=
      mul_lt_mul_of_pos_left hinv hKdm
    have final : DM_K * dm * (f2 ^ 2)⁻¹ * 1000 < DM_K * dm * (f1 ^ 2)⁻¹ * 1000 :=
      mul_lt_mul_of_pos_right key (by norm_num)
    simpa [time_delay] using final
  · have hn' : 20 ≤ s.dat_freq.length := hn
    have h20 : s.dat_freq.length / 20 ≠ 0 := by omega
    have hlen' : s.data.length = (s.dat_freq.map (time_delay dm)).length := by
      simpa using hlen
    have hres := shiftLoop_of_ge shift s.samprate⁻¹ s.dat_freq.length h20
      s.data (s.dat_freq.map (time_delay dm)) hlen'
    simp [disperse, disperse_filterbank, hsig, hnd, Signal.Nchan, hres]

/-- Claim C2, witness: the monotonicity and the completed dispersal at the
concrete 20-channel signal `Sig20` with `dm = 10`. -/
theorem disperse_filterbank_delay_spec_witness :
    time_delay 10 1300 < time_delay 10 1200 ∧
      (disperse shiftC Sig20 10).2 = none := by
  have h := disperse_filterbank_delay_spec shiftC Sig20 10 1200 1300 rfl rfl
    (by simp [Signal.Nchan, Sig20]) (by simp [Sig20]) (by norm_num)
    (by norm_num) (by norm_num)
  exact ⟨h.2.1, by rw [h.2.2]⟩

/-- Claim C7: `FD_shift` applies to each channel frequency the total delay
`Σ_k -fdParams[k] * log(freq/1000 MHz)^(k+1)` converted to milliseconds
(the factor 1000 is the seconds-to-ms conversion of each coefficient) via
the delay-application primitive, and sets the `_FDshifted` flag; no
already-applied precondition is enforced, so a second call shifts every
row again instead of being idempotent. -/
theorem FD_shift_spec {α : Type} (shift : α → ℝ → ℝ → α) (s : Signal α)
    (FD_params : List ℝ)
    (hn : 20 ≤ s.Nchan) (hlen : s.data.length = s.dat_freq.length) :
    (∀ f : ℝ, FD_delay FD_params f =
      ∑ k in Finset.range FD_params.length,
        -(FD_params.getD k 0) * Real.log (f / 1000) ^ (k + 1) * 1000) ∧
    FD_shift shift s FD_params =
      ({ s with
         data := List.zipWith (fun r d => shift r d (1 / s.samprate)) s.data
           (s.dat_freq.map (FD_delay FD_params)),
         FDshifted := some true }, none) ∧
    (FD_shift shift (FD_shift shift s FD_params).1 FD_params).1.data =
      List.zipWith (fun r d => shift r d (1 / s.samprate))
        (List.zipWith (fun r d => shift r d (1 / s.samprate)) s.data
          (s.dat_freq.map (FD_delay FD_params)))
        (s.dat_freq.map (FD_delay FD_params)) := by
  have hn' : 20 ≤ s.dat_freq.length := hn
  have h20 : s.dat_freq.length / 20 ≠ 0 := by omega
  have h1 := FD_shift_eq shift s FD_params h20 hlen
  refine ⟨?_, h1, ?_⟩
  · intro f
    unfold FD_delay
    rw [foldl_range_add]
    exact Finset.sum_congr rfl fun k _ => by ring
  · rw [h1]
    have h2 := FD_shift_eq shift
      ({ s with
         data := List.zipWith (fun r d => shift r d (1 / s.samprate)) s.data
           (s.dat_freq.map (FD_delay FD_params)),
         FDshifted := some true }) FD_params (by simpa using h20)
      (by simp [List.length_zipWith, hlen])
    rw [h2]

/-- Claim C7, witness: `FD_shift` at the concrete 20-channel signal `Sig20`
with one FD coefficient completes and sets the flag. -/
theorem FD_shift_spec_witness :
    (FD_shift shiftC Sig20 [1]).2 = none ∧
      (FD_shift shiftC Sig20 [1]).1.FDshifted = some true := by
  have h := FD_shift_spec shiftC Sig20 [1]
    (by simp [Signal.Nchan, Sig20]) (by simp [Sig20])
  exact ⟨by rw [h.2.1], by rw [h.2.1]⟩

/-- Claim C8: dispersing a channelized signal with `dm = 0` leaves `data`
unchanged, because every computed delay is zero and the delay-application
primitive is stable at delay zero (spec §6) — and this holds whether or not
the per-channel loop runs to completion. -/
theorem disperse_dm_zero_data_unchanged {α : Type} (shift : α → ℝ → ℝ → α)
    (s : Signal α) (h0 : ∀ (r : α) (t : ℝ), shift r 0 t = r)
    (hsig : s.sigtype = "FilterBankSignal") :
    (disperse shift s 0).1.data = s.data := by
  by_cases hd : s.dispersed.isSome
  · simp [disperse, hd]
  · have hz : ∀ d ∈ s.dat_freq.map (time_delay 0), d = 0 := by
      intro d hdm
      rcases List.mem_map.mp hdm with ⟨f, _, rfl⟩
      simp [time_delay]
    have hfst := shiftLoop_fst_of_zero shift s.samprate⁻¹
      s.dat_freq.length h0 (s.dat_freq.map (time_delay 0)) hz s.data
    rcases hsl : shiftLoop shift s.samprate⁻¹ s.dat_freq.length s.data
      (s.dat_freq.map (time_delay 0)) with ⟨rows, e⟩
    have hrows : rows = s.data := by rw [hsl] at hfst; exact hfst
    cases e <;>
      simp [disperse, disperse_filterbank, hd, hsig, Signal.Nchan, hsl, hrows]

/-- Claim C8, witness: dispersing the concrete 3-channel signal `Sig3` with
`dm = 0` under a zero-stable primitive leaves its data unchanged. -/
theorem disperse_dm_zero_data_unchanged_witness :
    (∀ (r : ℕ) (t : ℝ), shiftW r 0 t = r) ∧
      (disperse shiftW Sig3 0).1.data = Sig3.data :=
  ⟨fun r t => by simp [shiftW],
    disperse_dm_zero_data_unchanged shiftW Sig3 (fun r t => by simp [shiftW]) rfl⟩

/-- Claim C10, counterexample: on a channelized signal with fewer than 20
channels, `scatter_broaden` with `convolve = False` does not raise
ZeroDivisionError from its progress step, and mutates no channel at all: it
raises `TypeError` at the broken `self.scale_tau_d` call before its
per-channel loop can run. -/
theorem small_nchan_scatter_not_zerodiv :
    (scatter_broaden Sig3 1 1400 (11/3 : ℝ) false).2 ≠
        some PyError.zeroDivisionError ∧
      (scatter_broaden Sig3 1 1400 (11/3 : ℝ) false).1.data = Sig3.data := by
  constructor
  · simp [scatter_broaden]
  · rfl

/-- Claim C10, amended: on a fresh channelized signal with fewer than 20
channels, `disperse` and `FD_shift` raise ZeroDivisionError in the progress
step of their first loop iteration, after channel 0's row has already been
shifted — partial mutation — but `scatter_broaden` with `convolve = False`
instead raises `TypeError` before its loop, mutating nothing. -/
theorem small_nchan_partial_mutation {α : Type} (shift : α → ℝ → ℝ → α)
    (s : Signal α) (dm : ℝ) (params : List ℝ) (tau_d ref_freq beta : ℝ)
    (r0 : α) (rs : List α) (f0 : ℝ) (fs : List ℝ)
    (hsig : s.sigtype = "FilterBankSignal") (hnd : s.dispersed = none)
    (hdata : s.data = r0 :: rs) (hfreq : s.dat_freq = f0 :: fs)
    (hn : s.Nchan < 20) :
    disperse shift s dm =
      ({ s with
         dm := some dm
         data := shift r0 (time_delay dm f0) (1 / s.samprate) :: rs },
       some PyError.zeroDivisionError) ∧
    FD_shift shift s params =
      ({ s with data := shift r0 (FD_delay params f0) (1 / s.samprate) :: rs },
       some PyError.zeroDivisionError) ∧
    scatter_broaden s tau_d ref_freq beta false = (s, some PyError.typeError) := by
  have hn' : s.dat_freq.length < 20 := hn
  rw [hfreq] at hn'
  have h20 : (fs.length + 1) / 20 = 0 := by
    simpa using Nat.div_eq_of_lt hn'
  refine ⟨?_, ?_, rfl⟩
  · simp [disperse, disperse_filterbank, hsig, hnd, Signal.Nchan, hdata, hfreq,
      shiftLoop_of_lt, h20]
  · simp [FD_shift, Signal.Nchan, hdata, hfreq, shiftLoop_of_lt, h20]

/-- Claim C10, witness for the amended theorem at the concrete 3-channel
signal `Sig3`. -/
theorem small_nchan_partial_mutation_witness :
    disperse shiftC Sig3 10 =
      ({ Sig3 with
         dm := some 10
         data := shiftC 5 (time_delay 10 1200) (1 / Sig3.samprate) :: [6, 7] },
       some PyError.zeroDivisionError) ∧
    FD_shift shiftC Sig3 [1] =
      ({ Sig3 with data := shiftC 5 (FD_delay [1] 1200) (1 / Sig3.samprate) :: [6, 7] },
       some PyError.zeroDivisionError) ∧
    scatter_broaden Sig3 1 1400 (11/3 : ℝ) false = (Sig3, some PyError.typeError) :=
  small_nchan_partial_mutation shiftC Sig3 10 [1] 1 1400 (11/3) 5 [6, 7] 1200
    [1300, 1400] rfl rfl rfl rfl (by simp [Signal.Nchan, Sig3])

end PsrSigSim
